import Mathlib

/-!
Shallow embedding of the Van der Pauw geometry-classification and
measurement-aggregation core of the `physicslab` package
(`physicslab/experiment/van_der_pauw.py`, `physicslab/utility.py`,
`physicslab/electricity.py`), together with theorems settling the
specification claims about it.

Strings are modelled as `List Char`; pandas tables as `List Row`
with exact rational arithmetic (`ℚ`); a pandas `NaN` mean of an empty
selection is modelled as `Option.none`; a Python `ValueError` raised by
the `Geometry` enum constructor is modelled by an `Option` result.
-/

namespace Physicslab

/-- The `Geometry` enum from `van_der_pauw.py`: 8 four-digit contact
permutations plus the two group values `Vertical = "12"` and
`Horizontal = "21"`. -/
inductive Geometry where
  | R1234 | R3412 | R2143 | R4321
  | R2341 | R4123 | R3214 | R1432
  | Vertical | Horizontal
deriving DecidableEq, Repr, Fintype

namespace Geometry

/-- The `value` of each enum member (its defining string). -/
def value : Geometry → List Char
  | R1234 => ['1', '2', '3', '4']
  | R3412 => ['3', '4', '1', '2']
  | R2143 => ['2', '1', '4', '3']
  | R4321 => ['4', '3', '2', '1']
  | R2341 => ['2', '3', '4', '1']
  | R4123 => ['4', '1', '2', '3']
  | R3214 => ['3', '2', '1', '4']
  | R1432 => ['1', '4', '3', '2']
  | Vertical => ['1', '2']
  | Horizontal => ['2', '1']

/-- All ten enum members, in declaration order. -/
def allGeometries : List Geometry :=
  [R1234, R3412, R2143, R4321, R2341, R4123, R3214, R1432,
   Vertical, Horizontal]

/-- The eight four-digit permutation members. -/
def fourDigitGeometries : List Geometry :=
  [R1234, R3412, R2143, R4321, R2341, R4123, R3214, R1432]

/-- `Geometry(text)`: the Python enum value lookup; `none` models the
`ValueError` raised when no member has the given value. -/
def ofValue (s : List Char) : Option Geometry :=
  allGeometries.find? (fun g => g.value == s)

end Geometry

/-- The nested double loop of `physicslab.utility.permutation_sign`
counting the index pairs `i < j` with `array[i] > array[j]`. -/
def numberOfInversions : List Char → Nat
  | [] => 0
  | x :: xs => (xs.filter (fun y => y < x)).length + numberOfInversions xs

/-- `physicslab.utility.permutation_sign`: count inversions (index pairs
`i < j` with `array[i] > array[j]`) and return `(-1) ^ count`. -/
def permutation_sign (array : List Char) : Int :=
  (-1) ^ (numberOfInversions array)

namespace Geometry

/-- `Geometry.parse`: the literals `"vertical"` / `"horizontal"` map to the
group values; anything else goes through the enum constructor. `none`
models the `ValueError` (spec: `InvalidGeometryError`). -/
def parse (text : List Char) : Option Geometry :=
  if text = "vertical".toList then some Vertical
  else if text = "horizontal".toList then some Horizontal
  else ofValue text

/-- The comprehension
`''.join([self.value[i:i+2][::-1] for i in range(0, len, 2)])` of
`Geometry.reverse_polarity`: reverse each 2-character slice. -/
def swapPairs : List Char → List Char
  | a :: b :: rest => b :: a :: swapPairs rest
  | l => l

/-- `Geometry.reverse_polarity`: a 2-character value is returned unchanged;
a 4-character value has each 2-character slice reversed, and the result is
looked up in the enum (`none` models the `ValueError`). -/
def reverse_polarity (g : Geometry) : Option Geometry :=
  if g.value.length = 2 then some g
  else ofValue (swapPairs g.value)

/-- The slice expression `value[-number:] + value[:-number]` of
`Geometry.rotate`, for the already-reduced shift `k` (`0 ≤ k < length`)
and the rotation direction. In Python, `number = -k` when rotating
clockwise, and slicing with `-0` coincides with `0`. -/
def rotateSlices (l : List Char) (k : Nat) (counterclockwise : Bool) :
    List Char :=
  if counterclockwise then
    if k = 0 then l
    else l.drop (l.length - k) ++ l.take (l.length - k)
  else l.drop k ++ l.take k

/-- The body of `Geometry.rotate` after the statement
`number = number % len(self.value)` has reduced the shift to
`k ∈ [0, len)`: slice, concatenate, and look the string up in the enum
(`none` models the `ValueError`). -/
def rotateShifted (g : Geometry) (k : Nat) (counterclockwise : Bool) :
    Option Geometry :=
  ofValue (rotateSlices g.value k counterclockwise)

/-- `Geometry.rotate`: the shift is taken modulo the string length
(Python `%`, non-negative for a positive modulus, as is Lean's `Int.emod`),
then the rotated string is looked up in the enum. -/
def rotate (g : Geometry) (number : Int) (counterclockwise : Bool) :
    Option Geometry :=
  rotateShifted g ((number % (g.value.length : Int)).toNat) counterclockwise

/-- `Geometry.is_horizontal`: `permutation_sign(self.value) == -1`. -/
def is_horizontal (g : Geometry) : Bool :=
  permutation_sign g.value == -1

/-- `Geometry.is_vertical`: `permutation_sign(self.value) == 1`. -/
def is_vertical (g : Geometry) : Bool :=
  permutation_sign g.value == 1

/-- `Geometry.classify`: `Horizontal` when `is_horizontal`, else
`Vertical`. -/
def classify (g : Geometry) : Geometry :=
  if g.is_horizontal then Horizontal else Vertical

end Geometry

/-- One row of the measurement `pandas.DataFrame`: the mandatory
`Geometry`/`Voltage`/`Current` columns and the optional
`Hall_resistance` column (`none` models an absent value). Numeric
columns are embedded as exact rationals. -/
structure Row where
  geometry : Geometry
  voltage : ℚ
  current : ℚ
  resistance : Option ℚ
deriving DecidableEq, Repr

namespace Measurement

/-- `physicslab.electricity.Resistance.from_ohms_law`:
`voltage / current`. -/
def from_ohms_law (voltage current : ℚ) : ℚ :=
  voltage / current

/-- The first statement of `Measurement.analyze`:
`self.data.loc[:, RESISTANCE] = Resistance.from_ohms_law(...)`,
unconditionally overwriting the resistance column of every row. -/
def computeResistances (data : List Row) : List Row :=
  data.map fun r =>
    { r with resistance := some (from_ohms_law r.voltage r.current) }

/-- The pandas `.mean()` of a column selection: `NaN` (modelled `none`)
on an empty selection, else the sum divided by the count. -/
def mean (l : List ℚ) : Option ℚ :=
  if l.isEmpty then none else some (l.sum / (l.length : ℚ))

/-- The row mask of `Measurement.analyze`:
`data[GEOMETRY].apply(Geometry.classify).apply(Geometry.is_horizontal)`. -/
def mask (r : Row) : Bool :=
  (Geometry.classify r.geometry).is_horizontal

/-- `Measurement.analyze`: overwrite the resistance column via Ohm's law,
classify each geometry, then return the updated table together with the
mean resistance of the masked (horizontal) rows and of the complementary
(`~mask`) rows. -/
def analyze (data : List Row) : List Row × (Option ℚ × Option ℚ) :=
  let data2 := computeResistances data
  let Rh := mean ((data2.filter mask).filterMap Row.resistance)
  let Rv := mean ((data2.filter fun r => !mask r).filterMap Row.resistance)
  (data2, (Rh, Rv))

end Measurement

/-- The rows whose geometry classifies to `Horizontal` (the spec's
wording for the horizontal group of `group_and_average`). -/
def horizontalRows (data : List Row) : List Row :=
  data.filter fun r => Geometry.classify r.geometry == Geometry.Horizontal

/-- The rows whose geometry classifies to `Vertical` (the spec's wording
for the vertical group of `group_and_average`). -/
def verticalRows (data : List Row) : List Row :=
  data.filter fun r => Geometry.classify r.geometry == Geometry.Vertical

/-- The row mask of `analyze` agrees with the spec's wording: a row is
masked exactly when its geometry classifies to `Horizontal`. -/
lemma mask_eq_beq_horizontal (r : Row) :
    Measurement.mask r = (Geometry.classify r.geometry == Geometry.Horizontal) := by
  have h : ∀ g : Geometry,
      (Geometry.classify g).is_horizontal =
        (Geometry.classify g == Geometry.Horizontal) := by decide
  exact h r.geometry

/-- The complementary mask (`~mask`) selects exactly the rows whose
geometry classifies to `Vertical`. -/
lemma not_mask_eq_beq_vertical (r : Row) :
    (!Measurement.mask r) =
      (Geometry.classify r.geometry == Geometry.Vertical) := by
  have h : ∀ g : Geometry,
      (!(Geometry.classify g).is_horizontal) =
        (Geometry.classify g == Geometry.Vertical) := by decide
  exact h r.geometry

/-- Filtering the resistance-overwritten table by a geometry predicate
and extracting the resistance column yields the Ohm's-law values of the
correspondingly filtered original rows. -/
lemma computeResistances_filter_geometry (q : Geometry → Bool)
    (data : List Row) :
    ((Measurement.computeResistances data).filter
        fun r => q r.geometry).filterMap Row.resistance =
      (data.filter fun r => q r.geometry).map
        fun r => Measurement.from_ohms_law r.voltage r.current := by
  simp [Measurement.computeResistances, List.filter_map, List.filterMap_map,
    Function.comp_def]
  rw [show (fun x : Row => some (Measurement.from_ohms_law x.voltage x.current)) =
      some ∘ fun x : Row => Measurement.from_ohms_law x.voltage x.current from rfl,
    List.filterMap_eq_map]

/-- The horizontal-group resistance list inside `analyze`, rewritten in
the spec's wording. -/
lemma analyze_horizontal_list (data : List Row) :
    ((Measurement.computeResistances data).filter
        Measurement.mask).filterMap Row.resistance =
      (horizontalRows data).map
        fun r => Measurement.from_ohms_law r.voltage r.current := by
  rw [show Measurement.mask =
      fun r => Geometry.classify r.geometry == Geometry.Horizontal from
    funext mask_eq_beq_horizontal]
  exact computeResistances_filter_geometry
    (fun g => Geometry.classify g == Geometry.Horizontal) data

/-- The vertical-group resistance list inside `analyze`, rewritten in
the spec's wording. -/
lemma analyze_vertical_list (data : List Row) :
    ((Measurement.computeResistances data).filter
        fun r => !Measurement.mask r).filterMap Row.resistance =
      (verticalRows data).map
        fun r => Measurement.from_ohms_law r.voltage r.current := by
  rw [show (fun r => !Measurement.mask r) =
      fun r => Geometry.classify r.geometry == Geometry.Vertical from
    funext not_mask_eq_beq_vertical]
  exact computeResistances_filter_geometry
    (fun g => Geometry.classify g == Geometry.Vertical) data

/-- The pandas mean is `NaN` (`none`) exactly on the empty selection. -/
lemma mean_eq_none (l : List ℚ) : Measurement.mean l = none ↔ l = [] := by
  cases l <;> simp [Measurement.mean]

/-- The pandas mean of a nonempty selection is the sum over the count. -/
lemma mean_of_ne_nil (l : List ℚ) (h : l ≠ []) :
    Measurement.mean l = some (l.sum / (l.length : ℚ)) := by
  simp [Measurement.mean, List.isEmpty_iff, h]

/-- `Geometry.rotate` only depends on the shift through its residue,
read off the (concrete) length of each member's value. -/
lemma rotate_eq_rotateShifted (g : Geometry) (n : Int) (cc : Bool) :
    Geometry.rotate g n cc =
      Geometry.rotateShifted g
        (if g.value.length = 4 then (n % (4 : Int)).toNat
         else (n % (2 : Int)).toNat) cc := by
  cases g <;> rfl

/-- Rotating counterclockwise then clockwise by the same reduced shift is
the identity, checked over all members and residues. -/
lemma rotateShifted_roundtrip :
    ∀ (g : Geometry) (k : Fin 4),
      (Geometry.rotateShifted g
          (if g.value.length = 4 then (k : Nat) else (k : Nat) % 2)
          true).bind
        (fun h =>
          Geometry.rotateShifted h
            (if h.value.length = 4 then (k : Nat) else (k : Nat) % 2)
            false) = some g := by
  decide

/-- C1: over the `Geometry` members, `classify` returns `Horizontal`
exactly when the permutation-inversion-parity sign of the value is `-1`
and `Vertical` exactly when it is `+1`, and the 8 four-digit permutation
members split 4-and-4 between the two groups. -/
theorem vdp_c1 :
    (∀ g : Geometry,
      (Geometry.classify g = Geometry.Horizontal ↔
        permutation_sign g.value = -1) ∧
      (Geometry.classify g = Geometry.Vertical ↔
        permutation_sign g.value = 1)) ∧
    (Geometry.fourDigitGeometries.filter fun g =>
        Geometry.classify g == Geometry.Horizontal).length = 4 ∧
    (Geometry.fourDigitGeometries.filter fun g =>
        Geometry.classify g == Geometry.Vertical).length = 4 := by
  decide

/-- C5 counterexample: neither `"1234"` nor `"2143"` is classified into
the `Horizontal` group (their inversion counts are 0 and 2, both even,
so `permutation_sign` is `+1` and `is_horizontal` is false). -/
theorem vdp_c5_counterexample :
    Geometry.classify Geometry.R1234 ≠ Geometry.Horizontal ∧
    Geometry.classify Geometry.R2143 ≠ Geometry.Horizontal := by
  decide

/-- C5 amended: the geometries `"1234"` and `"2143"` are both classified
into the same group, namely `Vertical`. -/
theorem vdp_c5_amended :
    Geometry.classify Geometry.R1234 = Geometry.Vertical ∧
    Geometry.classify Geometry.R2143 = Geometry.Vertical := by
  decide

/-- C7 counterexample: `Geometry.parse` also succeeds on `"12"`, a string
that is neither a 4-character permutation of the digits 1-4 nor one of
the literals `"horizontal"` / `"vertical"`. -/
theorem vdp_c7_counterexample :
    Geometry.parse "12".toList = some Geometry.Vertical ∧
    "12".toList.length ≠ 4 ∧
    "12".toList ≠ "vertical".toList ∧
    "12".toList ≠ "horizontal".toList := by
  decide

/-- C7 amended: `Geometry.parse` succeeds exactly on the value strings of
the ten enum members (the 8 four-digit permutations in the enum plus the
group values `"12"` and `"21"`) and on the literals `"vertical"` /
`"horizontal"`; every other string fails. -/
theorem vdp_c7_amended (s : List Char) (g : Geometry) :
    Geometry.parse s = some g ↔
      (s = "vertical".toList ∧ g = Geometry.Vertical) ∨
      (s = "horizontal".toList ∧ g = Geometry.Horizontal) ∨
      s = g.value := by
  constructor
  · intro h
    unfold Geometry.parse at h
    split_ifs at h with h1 h2
    · exact Or.inl ⟨h1, (Option.some.injEq _ _ ▸ h).symm⟩
    · exact Or.inr (Or.inl ⟨h2, (Option.some.injEq _ _ ▸ h).symm⟩)
    · have hp := List.find?_some h
      exact Or.inr (Or.inr ((beq_iff_eq.mp hp).symm))
  · rintro (⟨rfl, rfl⟩ | ⟨rfl, rfl⟩ | rfl)
    · decide
    · decide
    · cases g <;> decide

/-- C8: `reverse_polarity` always yields a valid `Geometry`, is an
involution, and returns the 2-character group values unchanged. -/
theorem vdp_c8 :
    (∀ g : Geometry,
      (Geometry.reverse_polarity g).bind Geometry.reverse_polarity =
        some g) ∧
    (∀ g : Geometry, (Geometry.reverse_polarity g).isSome = true) ∧
    Geometry.reverse_polarity Geometry.Vertical = some Geometry.Vertical ∧
    Geometry.reverse_polarity Geometry.Horizontal =
      some Geometry.Horizontal := by
  decide

/-- C9: rotating counterclockwise by any integer `n` and then clockwise
by `n` returns the original geometry, and neither rotation fails. -/
theorem vdp_c9 (g : Geometry) (n : Int) :
    (Geometry.rotate g n true).bind
      (fun h => Geometry.rotate h n false) = some g := by
  have h4 : (n % (4 : Int)).toNat < 4 := by omega
  have h2 : (n % (2 : Int)).toNat = (n % (4 : Int)).toNat % 2 := by omega
  have hrw : ∀ (g' : Geometry) (cc : Bool),
      Geometry.rotate g' n cc =
        Geometry.rotateShifted g'
          (if g'.value.length = 4 then (n % (4 : Int)).toNat
           else (n % (4 : Int)).toNat % 2) cc := by
    intro g' cc
    rw [rotate_eq_rotateShifted]
    by_cases hl : g'.value.length = 4 <;> simp [hl, h2]
  simp only [hrw]
  exact rotateShifted_roundtrip g ⟨(n % (4 : Int)).toNat, h4⟩

/-- C10: polarity reversal never changes the classification group. -/
theorem vdp_c10 :
    ∀ g : Geometry,
      (Geometry.reverse_polarity g).map Geometry.classify =
        some (Geometry.classify g) := by
  decide

/-- C3: on a table with at least one row classifying to each group (and
nonzero currents, so that the exact-rational embedding of the float
division is faithful), `analyze` returns exactly the arithmetic mean of
the per-row `Voltage / Current` resistances of the `Horizontal`-classified
rows and of the `Vertical`-classified rows. -/
theorem vdp_c3 (data : List Row)
    (hh : ∃ r ∈ data, Geometry.classify r.geometry = Geometry.Horizontal)
    (hv : ∃ r ∈ data, Geometry.classify r.geometry = Geometry.Vertical)
    (_hI : ∀ r ∈ data, r.current ≠ 0) :
    (Measurement.analyze data).2 =
      (some (((horizontalRows data).map fun r => r.voltage / r.current).sum /
        ((horizontalRows data).length : ℚ)),
       some (((verticalRows data).map fun r => r.voltage / r.current).sum /
        ((verticalRows data).length : ℚ))) := by
  obtain ⟨rh, hrhm, hrhc⟩ := hh
  obtain ⟨rv, hrvm, hrvc⟩ := hv
  have hne_h : horizontalRows data ≠ [] := by
    intro hemp
    have hmem : rh ∈ horizontalRows data :=
      List.mem_filter.mpr ⟨hrhm, by simp [hrhc]⟩
    rw [hemp] at hmem
    exact absurd hmem (List.not_mem_nil rh)
  have hne_v : verticalRows data ≠ [] := by
    intro hemp
    have hmem : rv ∈ verticalRows data :=
      List.mem_filter.mpr ⟨hrvm, by simp [hrvc]⟩
    rw [hemp] at hmem
    exact absurd hmem (List.not_mem_nil rv)
  simp only [Measurement.analyze, analyze_horizontal_list,
    analyze_vertical_list]
  rw [mean_of_ne_nil _ (by simp [hne_h]), mean_of_ne_nil _ (by simp [hne_v])]
  simp [Measurement.from_ohms_law]

/-- A concrete table with two horizontally and one vertically classified
rows, used to instantiate `vdp_c3`. -/
def c3Table : List Row :=
  [⟨Geometry.R2341, 2, 1, none⟩, ⟨Geometry.R2341, 3, 1, none⟩,
   ⟨Geometry.R1234, 4, 1, none⟩]

/-- Witness for C3: `vdp_c3` applied to `c3Table`. -/
theorem vdp_c3_witness :
    (Measurement.analyze c3Table).2 =
      (some (((horizontalRows c3Table).map fun r => r.voltage / r.current).sum /
        ((horizontalRows c3Table).length : ℚ)),
       some (((verticalRows c3Table).map fun r => r.voltage / r.current).sum /
        ((verticalRows c3Table).length : ℚ))) :=
  vdp_c3 c3Table (by decide) (by decide) (by decide)

/-- A table whose rows all carry a supplied resistance value differing
from `Voltage / Current`. -/
def c4Table : List Row :=
  [⟨Geometry.R2341, 2, 1, some 5⟩, ⟨Geometry.R1234, 3, 1, some 7⟩]

/-- C4 counterexample: on a table whose resistance column is fully
supplied (values 5 and 7), `analyze` still returns the Ohm's-law values
2 and 3 in the group averages and overwrites the stored column with
them. -/
theorem vdp_c4_counterexample :
    (Measurement.analyze c4Table).2 = (some 2, some 3) ∧
    (Measurement.analyze c4Table).1 =
      [⟨Geometry.R2341, 2, 1, some 2⟩, ⟨Geometry.R1234, 3, 1, some 3⟩] ∧
    ((some 2 : Option ℚ), (some 3 : Option ℚ)) ≠
      ((some 5 : Option ℚ), (some 7 : Option ℚ)) := by
  refine ⟨?_, ?_, by norm_num⟩ <;>
    simp +decide [Measurement.analyze, Measurement.computeResistances,
      Measurement.mean, Measurement.mask, Measurement.from_ohms_law, c4Table]

/-- C4 amended: `analyze` ignores any supplied resistance values — its
result is unchanged when the resistance column is erased first — and
every row of the returned table carries the recomputed Ohm's-law
value. -/
theorem vdp_c4_amended (data : List Row) :
    Measurement.analyze data =
      Measurement.analyze (data.map fun r => { r with resistance := none }) ∧
    ((Measurement.analyze data).1.all fun r =>
      r.resistance ==
        some (Measurement.from_ohms_law r.voltage r.current)) = true := by
  have hcr :
      Measurement.computeResistances
          (data.map fun r => { r with resistance := none }) =
        Measurement.computeResistances data := by
    simp only [Measurement.computeResistances, List.map_map]
    rfl
  constructor
  · simp only [Measurement.analyze, hcr]
  · simp [Measurement.analyze, Measurement.computeResistances,
      List.all_map, Function.comp_def]

/-- A table whose single row classifies to `Horizontal`, leaving the
vertical group empty. -/
def c6Table : List Row :=
  [⟨Geometry.R2341, 2, 1, none⟩]

/-- C6 counterexample: on a table whose rows all classify to one group,
`analyze` returns normally with the empty group's mean being the `NaN`
sentinel (modelled `none`) — no `EmptyGroupError` is raised. -/
theorem vdp_c6_counterexample :
    Measurement.analyze c6Table =
      ([⟨Geometry.R2341, 2, 1, some 2⟩], (some 2, none)) := by
  simp +decide [Measurement.analyze, Measurement.computeResistances,
    Measurement.mean, Measurement.mask, Measurement.from_ohms_law, c6Table]

/-- C6 amended: a group average of `analyze` is the `NaN` sentinel
(`none`) exactly when that group has no rows — every row classifies to
the other group — rather than an `EmptyGroupError` being raised. -/
theorem vdp_c6_amended (data : List Row) :
    ((Measurement.analyze data).2.1 = none ↔
      (data.all fun r =>
        Geometry.classify r.geometry == Geometry.Vertical) = true) ∧
    ((Measurement.analyze data).2.2 = none ↔
      (data.all fun r =>
        Geometry.classify r.geometry == Geometry.Horizontal) = true) := by
  have hpt : ∀ g : Geometry,
      (¬Geometry.classify g = Geometry.Horizontal) ↔
        Geometry.classify g = Geometry.Vertical := by decide
  have hpt2 : ∀ g : Geometry,
      (¬Geometry.classify g = Geometry.Vertical) ↔
        Geometry.classify g = Geometry.Horizontal := by decide
  simp only [Measurement.analyze, analyze_horizontal_list,
    analyze_vertical_list]
  rw [mean_eq_none, mean_eq_none]
  simp [horizontalRows, verticalRows, List.filter_eq_nil_iff,
    List.all_eq_true, hpt, hpt2]

end Physicslab
